import Mathlib

/-!
# Verification of the hybridbuffer core (Go package `schneider.vip/hybridbuffer`)

Shallow embedding of the hybrid memory/disk buffer implemented in `buffer.go`
(`hybridBuffer` and its methods `Write`, `Read`, `Reset`, `Close`, `Truncate`,
`Len`, `Cap`, `flushToStorage`, `openWriteStream`, `openReadStream`) together
with the middleware pipeline wiring and the storage backend contract.

Modelling decisions, all taken from the source:

* Bytes are `Nat`; byte sequences are `List Nat`.
* A middleware (`middleware.Middleware`) is modelled at the level of whole
  byte sequences: `enc` maps the bytes written through its wrapped writer to
  the bytes the inner writer receives (finalized at close), and `dec` maps the
  bytes the inner reader supplies to the bytes the wrapped reader yields.
* The storage backend (`storage.Backend`) holds at most one blob.  `Create`
  opens a write stream; closing the (pipeline-wrapped) write stream commits
  the encoded bytes as the blob; `Open` yields a reader over the committed
  blob; `Remove` deletes it.
* Stream/store failures are injected through a `StreamModel` carried in the
  state: `createFail` makes `Backend.Create` fail, `writeFun` gives for every
  write-stream `Write` call (as a function of the bytes already written and
  the data of the call) the acknowledged count and whether an error is
  reported, and the three close/remove flags make the corresponding release
  steps fail.  `okFaults` is the fault-free behaviour (every write fully
  acknowledged, no failures).
* The write stream is represented by the user-side bytes written through it so
  far; encoding through the middleware chain happens when it is closed, which
  is when the Go code commits the blob.  The read stream is represented by the
  not-yet-served decoded bytes.
* Go's `Read`/`Write` results `(n int, err error)` become `Nat × Option GoErr`
  (with the served bytes made explicit for `Read`), `io.EOF` being
  `GoErr.eof`.  `errors.Wrap` is `GoErr.wrapped`.
* Use-after-close dereferences a nil backend in Go (a panic); the model keeps
  the functions total there, and no theorem relies on such states.
-/

namespace HybridBuffer

/-- A middleware transform: `enc` is the effect of its `Writer` wrapper on the
full byte sequence (input of the wrapped writer to output reaching the inner
writer, finalization included), `dec` the effect of its `Reader` wrapper
(bytes of the inner reader to bytes yielded). -/
structure Transform where
  enc : List Nat → List Nat
  dec : List Nat → List Nat

/-- Fault injection for the storage backend and its streams.  `writeFun`
takes the bytes already written through the stream and the data of the call
and returns the acknowledged count and whether the call errors. -/
structure StreamModel where
  createFail : Bool
  writeFun : List Nat → List Nat → Nat × Bool
  closeWFail : Bool
  closeRFail : Bool
  removeFail : Bool

/-- The fault-free stream behaviour: creation succeeds, every write is fully
acknowledged without error, closing and removal succeed. -/
def okFaults : StreamModel :=
  { createFail := false
    writeFun := fun _ data => (data.length, false)
    closeWFail := false
    closeRFail := false
    removeFail := false }

/-- Errors of the model.  `eof` is `io.EOF`; `wrapped` is `errors.Wrap`. -/
inductive GoErr where
  | eof
  | createFailed
  | writeFailed
  | closeWriteFailed
  | closeReadFailed
  | removeFailed
  | wrapped (msg : String) (inner : GoErr)
deriving DecidableEq, Repr

/-- The state of a `hybridBuffer` (struct `hybridBuffer` in buffer.go).
`memoryBuffer` is the content of the `bytes.Buffer` (never consumed by the
buffer itself, reads slice it at `offset`), `storageBackend` is `some blob`
when a backend is held (`blob` the committed content, `[]` before the first
commit), `writeStream` the user-side bytes written through the open write
stream, `readStream` the decoded bytes not yet served by the open read
stream. -/
structure hybridBuffer where
  threshold : Nat
  size : Nat
  offset : Nat
  memoryBuffer : List Nat
  storageBackend : Option (List Nat)
  writeStream : Option (List Nat)
  readStream : Option (List Nat)
  middlewares : List Transform
  usingStorage : Bool
  faults : StreamModel

/-- Bytes that reach the raw store writer when `s` is written through the
pipeline-wrapped write stream and everything is closed.  `openWriteStream`
builds `writer = M(n-1).Writer( ... M0.Writer(storeWriter) ... )` by iterating
forward over `b.middlewares` and wrapping each time, so the user's bytes pass
through the LAST middleware's encoder first and the FIRST middleware's
encoder last: the store receives `M0.enc (M1.enc ( ... M(n-1).enc s ... ))`. -/
def encStore (ms : List Transform) (s : List Nat) : List Nat :=
  ms.foldr (fun m acc => m.enc acc) s

/-- Bytes the user-visible read stream yields as a function of the store
blob.  `openReadStream` builds `reader = M0.Reader( ... M(n-1).Reader(storeReader) ... )`
by iterating backward over `b.middlewares`, so the LAST middleware's decoder
is applied to the raw store bytes first and the FIRST middleware's decoder
last: the user receives `M0.dec (M1.dec ( ... M(n-1).dec blob ... ))`. -/
def decUser (ms : List Transform) (blob : List Nat) : List Nat :=
  ms.foldr (fun m acc => m.dec acc) blob

/-- Modelled from the spec (section 4.3, not from the source): the spec's
write nesting `T1.wrap_writer(T2.wrap_writer( ... Tn.wrap_writer(store) ... ))`,
under which `T1` sees the user's bytes and `Tn`'s output reaches the store:
the store receives `Tn.enc ( ... T1.enc s ... )`. -/
def specStoreBytes (ms : List Transform) (s : List Nat) : List Nat :=
  ms.foldl (fun acc m => m.enc acc) s

/-- Modelled from the spec (section 4.3, not from the source): the spec's
read nesting `Tn.wrap_reader( ... T1.wrap_reader(store) ... )`, under which
`T1`'s decoder is applied to the raw store bytes first and the user receives
`Tn.dec ( ... T1.dec blob ... )`. -/
def specUserBytes (ms : List Transform) (blob : List Nat) : List Nat :=
  ms.foldl (fun acc m => m.dec acc) blob

/-- A freshly constructed buffer (`New` with `WithThreshold th`,
`WithMiddleware ms` and a backend behaving like `f`). -/
def mkBuffer (th : Nat) (ms : List Transform) (f : StreamModel) : hybridBuffer :=
  { threshold := th
    size := 0
    offset := 0
    memoryBuffer := []
    storageBackend := none
    writeStream := none
    readStream := none
    middlewares := ms
    usingStorage := false
    faults := f }

/-- `openWriteStream`: no-op when a write stream is already open, otherwise
`storageBackend.Create()` (which can fail) followed by wrapping with the
middleware pipeline.  The fresh stream has received no bytes yet. -/
def openWriteStream (s : hybridBuffer) : hybridBuffer × Option GoErr :=
  if s.writeStream.isSome then (s, none)
  else if s.faults.createFail then
    (s, some (GoErr.wrapped "failed to create storage write stream" GoErr.createFailed))
  else ({ s with writeStream := some [] }, none)

/-- Closing the write stream with the error discarded, as `Read`, `Bytes` and
`Truncate` do (`b.writeStream.Close(); b.writeStream = nil`).  Closing
cascades the middleware finalizations and commits the encoded bytes as the
backend's blob. -/
def closeWriteStreamQuiet (s : hybridBuffer) : hybridBuffer :=
  match s.writeStream with
  | none => s
  | some u =>
      { s with writeStream := none, storageBackend := some (encStore s.middlewares u) }

/-- `flushToStorage`: create the backend, open the pipeline-wrapped write
stream, write the whole memory content through it, and only then switch
`usingStorage` on.  Any failure leaves `usingStorage` off. -/
def flushToStorage (s : hybridBuffer) : hybridBuffer × Option GoErr :=
  if s.usingStorage then (s, none)
  else
    let q := openWriteStream { s with storageBackend := some [] }
    match q.2 with
    | some e => (q.1, some e)
    | none =>
        let s2 := q.1
        if s2.memoryBuffer.isEmpty then ({ s2 with usingStorage := true }, none)
        else
          let w := s2.writeStream.getD []
          let r := s2.faults.writeFun w s2.memoryBuffer
          let s3 := { s2 with writeStream := some (w ++ s2.memoryBuffer.take r.1) }
          if r.2 then
            (s3, some (GoErr.wrapped "failed to write memory data to storage" GoErr.writeFailed))
          else ({ s3 with usingStorage := true }, none)

/-- `Write`: empty input is a no-op; a memory-mode write whose completion
would push `memoryBuffer.Len() + len(data)` strictly above the threshold
first runs `flushToStorage` (aborting on its error); then the data goes to
the write stream (opened if needed) in storage mode or to the memory buffer
otherwise; `size` is incremented by `n` only when no error is reported. -/
def Write (s : hybridBuffer) (data : List Nat) : Nat × Option GoErr × hybridBuffer :=
  if data.isEmpty then (0, none, s)
  else
    let p : hybridBuffer × Option GoErr :=
      if ¬s.usingStorage ∧ s.memoryBuffer.length + data.length > s.threshold then
        flushToStorage s
      else (s, none)
    match p.2 with
    | some e => (0, some (GoErr.wrapped "failed to flush to storage" e), p.1)
    | none =>
        let s1 := p.1
        if s1.usingStorage then
          let q := openWriteStream s1
          match q.2 with
          | some e => (0, some (GoErr.wrapped "failed to open write stream" e), q.1)
          | none =>
              let s2 := q.1
              let w := s2.writeStream.getD []
              let r := s2.faults.writeFun w data
              let s3 := { s2 with writeStream := some (w ++ data.take r.1) }
              if r.2 then (r.1, some GoErr.writeFailed, s3)
              else (r.1, none, { s3 with size := s3.size + r.1 })
        else
          (data.length, none,
            { s1 with memoryBuffer := s1.memoryBuffer ++ data,
                      size := s1.size + data.length })

/-- `Read` into a destination of length `k`: returns `io.EOF` when
`offset >= size`; otherwise closes any live write stream (error discarded),
computes `bytesToRead = min k (size - offset)` and serves from the read
stream (opened over the decoded blob if needed) in storage mode, or from
`memoryBuffer[offset ...]` in memory mode; `offset` advances by the count
served. -/
def Read (s : hybridBuffer) (k : Nat) : List Nat × Option GoErr × hybridBuffer :=
  if s.offset ≥ s.size then ([], some GoErr.eof, s)
  else
    let s1 := closeWriteStreamQuiet s
    let btr := min k (s1.size - s1.offset)
    if s1.usingStorage then
      let rs := s1.readStream.getD (decUser s1.middlewares (s1.storageBackend.getD []))
      let served := rs.take btr
      (served, none,
        { s1 with readStream := some (rs.drop served.length),
                  offset := s1.offset + served.length })
    else
      let served :=
        if s1.offset < s1.memoryBuffer.length then
          (s1.memoryBuffer.drop s1.offset).take btr
        else []
      (served, none, { s1 with offset := s1.offset + served.length })

/-- `Reset`: close both streams (errors discarded), remove the backend, clear
the memory buffer, zero `size` and `offset`, back to memory mode. -/
def Reset (s : hybridBuffer) : hybridBuffer :=
  { s with writeStream := none
           readStream := none
           storageBackend := none
           memoryBuffer := []
           size := 0
           offset := 0
           usingStorage := false }

/-- `Close`: close the write stream, close the read stream, remove the
backend — every step is attempted, each failing step overwrites `lastErr`,
and the collected `lastErr` is returned. -/
def Close (s : hybridBuffer) : Option GoErr × hybridBuffer :=
  let e1 : Option GoErr :=
    if s.writeStream.isSome ∧ s.faults.closeWFail then some GoErr.closeWriteFailed else none
  let e2 : Option GoErr :=
    if s.readStream.isSome ∧ s.faults.closeRFail then some GoErr.closeReadFailed else none
  let e3 : Option GoErr :=
    if s.storageBackend.isSome ∧ s.faults.removeFail then some GoErr.removeFailed else none
  ((e3.orElse fun _ => e2.orElse fun _ => e1),
   { s with writeStream := none, readStream := none, storageBackend := none })

/-- `Truncate n`: `none` models the panic for `n > size` (negative `n` cannot
occur with `Nat`).  `Truncate 0` is `Reset`.  Otherwise: save the offset,
rewind to 0, drop the read stream, read the first `n` logical bytes, `Reset`,
re-write what was read, and restore the offset only when it was strictly
below the count actually read. -/
def Truncate (s : hybridBuffer) (n : Nat) : Option hybridBuffer :=
  if n > s.size then none
  else if n = 0 then some (Reset s)
  else
    let oldOffset := s.offset
    let s1 := { s with offset := 0, readStream := none }
    let r := Read s1 n
    let s2 := Reset r.2.2
    let w := Write s2 r.1
    let s3 := w.2.2
    some (if oldOffset < r.1.length then { s3 with offset := oldOffset } else s3)

/-- `Len`: unread bytes. -/
def Len (s : hybridBuffer) : Nat := s.size - s.offset

/-- `Cap`: defined in the source as `b.Len()`. -/
def Cap (s : hybridBuffer) : Nat := Len s

/-- `Size`: total bytes written. -/
def Size (s : hybridBuffer) : Nat := s.size

/-- The public operations used to describe reachable states. -/
inductive Op where
  | write (data : List Nat)
  | read (k : Nat)
  | reset
  | close
  | truncate (n : Nat)

/-- One public operation, outputs discarded.  An out-of-range `Truncate`
panics in Go; the model leaves the state unchanged there. -/
def applyOp (s : hybridBuffer) : Op → hybridBuffer
  | Op.write data => (Write s data).2.2
  | Op.read k => (Read s k).2.2
  | Op.reset => Reset s
  | Op.close => (Close s).2
  | Op.truncate n => (Truncate s n).getD s

/-- Run a sequence of public operations. -/
def exec (s : hybridBuffer) (ops : List Op) : hybridBuffer :=
  ops.foldl applyOp s

/-- The buffer's logical content (glossary: the conceptual byte queue,
independent of which tier holds it), read off the state according to the
data-model invariants: the memory content in memory mode; in spill mode the
bytes written through the live write stream (append phase) or the committed
blob as decoded by the pipeline (drain phase). -/
def logicalContent (s : hybridBuffer) : List Nat :=
  if s.usingStorage = true then
    match s.writeStream with
    | some u => u
    | none => decUser s.middlewares (s.storageBackend.getD [])
  else s.memoryBuffer

/-- Memory-mode size invariant of the source: while not using storage, the
total size equals the memory content length.  Unlike `MemInv` below this
holds under ANY backend behaviour, failing ones included. -/
def MemSize (s : hybridBuffer) : Prop :=
  s.usingStorage = false → s.size = s.memoryBuffer.length

/-- Memory-mode invariant of the source under a fault-free backend: while not
using storage, the total size equals the memory content length and no write
stream is open.  (With a failing backend a failed spill can leave a stale
write stream behind, so the second part needs `okFaults`.) -/
def MemInv (s : hybridBuffer) : Prop :=
  s.usingStorage = false → s.size = s.memoryBuffer.length ∧ s.writeStream = none

/-! ## Concrete transforms and fault models used in the theorems -/

/-- A lossless transform: byte reversal in both directions. -/
def revT : Transform := { enc := List.reverse, dec := List.reverse }

/-- A lossless transform: prepend the byte `7` on encode, drop the first byte
on decode. -/
def padT : Transform := { enc := fun s => 7 :: s, dec := List.tail }

/-- Backend whose write-stream close and blob removal both fail. -/
def badCloseFaults : StreamModel := { okFaults with closeWFail := true, removeFail := true }

/-- Write stream that fully acknowledges its first call (the one issued while
its content is still empty) and on any later call acknowledges 3 bytes while
reporting an error. -/
def ackThenFailFaults : StreamModel :=
  { okFaults with
      writeFun := fun content data => if content.isEmpty then (data.length, false) else (3, true) }

/-- Backend whose `Create` fails. -/
def createFailFaults : StreamModel := { okFaults with createFail := true }

/-- Write stream that acknowledges nothing and errors on every call. -/
def memWriteFailFaults : StreamModel := { okFaults with writeFun := fun _ _ => (0, true) }

/-! ## Structural lemmas -/

theorem closeWriteStreamQuiet_writeStream (s : hybridBuffer) :
    (closeWriteStreamQuiet s).writeStream = none := by
  unfold closeWriteStreamQuiet; split <;> simp_all

theorem closeWriteStreamQuiet_pres (s : hybridBuffer) :
    (closeWriteStreamQuiet s).readStream = s.readStream ∧
    (closeWriteStreamQuiet s).faults = s.faults ∧
    (closeWriteStreamQuiet s).offset = s.offset ∧
    (closeWriteStreamQuiet s).size = s.size ∧
    (closeWriteStreamQuiet s).memoryBuffer = s.memoryBuffer ∧
    (closeWriteStreamQuiet s).threshold = s.threshold ∧
    (closeWriteStreamQuiet s).middlewares = s.middlewares ∧
    (closeWriteStreamQuiet s).usingStorage = s.usingStorage := by
  unfold closeWriteStreamQuiet; split <;> simp_all

theorem openWriteStream_pres (s : hybridBuffer) :
    (openWriteStream s).1.readStream = s.readStream ∧
    (openWriteStream s).1.faults = s.faults ∧
    (openWriteStream s).1.offset = s.offset ∧
    (openWriteStream s).1.size = s.size ∧
    (openWriteStream s).1.memoryBuffer = s.memoryBuffer ∧
    (openWriteStream s).1.threshold = s.threshold ∧
    (openWriteStream s).1.middlewares = s.middlewares ∧
    (openWriteStream s).1.usingStorage = s.usingStorage := by
  unfold openWriteStream; split_ifs <;> exact ⟨rfl, rfl, rfl, rfl, rfl, rfl, rfl, rfl⟩

theorem flushToStorage_pres (s : hybridBuffer) :
    (flushToStorage s).1.readStream = s.readStream ∧
    (flushToStorage s).1.faults = s.faults ∧
    (flushToStorage s).1.offset = s.offset ∧
    (flushToStorage s).1.size = s.size ∧
    (flushToStorage s).1.memoryBuffer = s.memoryBuffer ∧
    (flushToStorage s).1.threshold = s.threshold ∧
    (flushToStorage s).1.middlewares = s.middlewares := by
  have h := openWriteStream_pres { s with storageBackend := some [] }
  unfold flushToStorage
  split
  · exact ⟨rfl, rfl, rfl, rfl, rfl, rfl, rfl⟩
  · rcases hop : openWriteStream { s with storageBackend := some [] } with ⟨s2, e⟩
    rw [hop] at h
    cases e
    · dsimp only
      split_ifs <;> simp_all
    · simp_all

theorem Write_pres (s : hybridBuffer) (d : List Nat) :
    (Write s d).2.2.readStream = s.readStream ∧
    (Write s d).2.2.faults = s.faults ∧
    (Write s d).2.2.offset = s.offset ∧
    (Write s d).2.2.threshold = s.threshold ∧
    (Write s d).2.2.middlewares = s.middlewares := by
  have hf := flushToStorage_pres s
  unfold Write
  split
  · exact ⟨rfl, rfl, rfl, rfl, rfl⟩
  · set p : hybridBuffer × Option GoErr :=
      if ¬s.usingStorage = true ∧ s.memoryBuffer.length + d.length > s.threshold then
        flushToStorage s
      else (s, none) with hp
    have h1 : p.1.readStream = s.readStream ∧ p.1.faults = s.faults ∧
        p.1.offset = s.offset ∧ p.1.threshold = s.threshold ∧
        p.1.middlewares = s.middlewares := by
      rw [hp]; split_ifs <;> simp_all
    have ho := openWriteStream_pres p.1
    dsimp only
    cases hp2 : p.2
    · cases hq : (openWriteStream p.1).2 <;> split_ifs <;> simp_all
    · simp_all

theorem Read_pres (s : hybridBuffer) (k : Nat) :
    (Read s k).2.2.faults = s.faults ∧
    (Read s k).2.2.threshold = s.threshold ∧
    (Read s k).2.2.middlewares = s.middlewares ∧
    (Read s k).2.2.usingStorage = s.usingStorage ∧
    (Read s k).2.2.size = s.size ∧
    (Read s k).2.2.memoryBuffer = s.memoryBuffer := by
  unfold Read
  split
  · exact ⟨rfl, rfl, rfl, rfl, rfl, rfl⟩
  · have hc := closeWriteStreamQuiet_pres s
    dsimp only
    split_ifs <;> simp_all

theorem flushToStorage_okFaults (s : hybridBuffer) (hf : s.faults = okFaults) :
    (flushToStorage s).2 = none ∧ (flushToStorage s).1.usingStorage = true := by
  unfold flushToStorage openWriteStream
  split_ifs <;>
    first
      | (simp_all [okFaults]; done)
      | (constructor <;> (dsimp only; split_ifs <;> simp_all [okFaults]))

theorem Write_usingStorage_stays (s : hybridBuffer) (d : List Nat)
    (h : s.usingStorage = true) : (Write s d).2.2.usingStorage = true := by
  have ho := openWriteStream_pres s
  unfold Write
  split
  · exact h
  · rw [if_neg (by simp [h])]
    dsimp only
    rw [if_pos h]
    cases hq : (openWriteStream s).2 <;> split_ifs <;> simp_all

theorem Write_memory_no_spill (s : hybridBuffer) (d : List Nat)
    (hmode : s.usingStorage = false)
    (hle : ¬s.memoryBuffer.length + d.length > s.threshold) :
    (Write s d).2.2 = if d.isEmpty then s else
      { s with memoryBuffer := s.memoryBuffer ++ d, size := s.size + d.length } := by
  unfold Write
  split
  · simp_all
  · rw [if_neg (by simp [hle])]
    dsimp only
    rw [if_neg (by simp [hmode])]
    try simp_all

theorem Write_spill_ok_usingStorage (s : hybridBuffer) (d : List Nat)
    (hf : s.faults = okFaults) (hmode : s.usingStorage = false)
    (hne : d.isEmpty = false)
    (hgt : s.memoryBuffer.length + d.length > s.threshold) :
    (Write s d).2.2.usingStorage = true := by
  have hfl := flushToStorage_okFaults s hf
  have ho := openWriteStream_pres (flushToStorage s).1
  unfold Write
  rw [if_neg (by simp [hne])]
  rw [if_pos (by exact ⟨by simp [hmode], hgt⟩)]
  dsimp only
  cases hp : (flushToStorage s).2
  · rw [if_pos hfl.2]
    cases hq : (openWriteStream (flushToStorage s).1).2 <;> split_ifs <;> simp_all
  · rw [hp] at hfl
    cases hfl.1

theorem memInv_Write (s : hybridBuffer) (d : List Nat) (hf : s.faults = okFaults)
    (h : MemInv s) : MemInv (Write s d).2.2 := by
  by_cases hus : s.usingStorage = true
  · intro hx
    rw [Write_usingStorage_stays s d hus] at hx
    cases hx
  · have hmode : s.usingStorage = false := by simpa using hus
    by_cases hd : d.isEmpty
    · unfold Write
      rw [if_pos hd]
      exact h
    · by_cases hgt : s.memoryBuffer.length + d.length > s.threshold
      · intro hx
        rw [Write_spill_ok_usingStorage s d hf hmode (by simpa using hd) hgt] at hx
        cases hx
      · rw [Write_memory_no_spill s d hmode hgt, if_neg hd]
        intro _
        obtain ⟨h1, h2⟩ := h hmode
        exact ⟨by simp [h1], by simp [h2]⟩

theorem memInv_Read (s : hybridBuffer) (k : Nat) (h : MemInv s) :
    MemInv (Read s k).2.2 := by
  unfold Read
  split
  · exact h
  · have hc := closeWriteStreamQuiet_pres s
    have hw := closeWriteStreamQuiet_writeStream s
    dsimp only
    split_ifs with hus
    · intro hx
      have hx2 : (closeWriteStreamQuiet s).usingStorage = false := hx
      rw [hus] at hx2
      cases hx2
    all_goals
      intro _
      have hmode : s.usingStorage = false := by
        rw [hc.2.2.2.2.2.2.2] at hus
        simpa using hus
      obtain ⟨h1, h2⟩ := h hmode
      refine ⟨?_, hw⟩
      show (closeWriteStreamQuiet s).size = (closeWriteStreamQuiet s).memoryBuffer.length
      rw [hc.2.2.2.1, hc.2.2.2.2.1]
      exact h1

theorem memInv_Truncate (s : hybridBuffer) (n : Nat) (hf : s.faults = okFaults)
    (h : MemInv s) : MemInv ((Truncate s n).getD s) := by
  unfold Truncate
  split_ifs
  · exact h
  · intro _
    exact ⟨rfl, rfl⟩
  · dsimp only
    have hrf : (Read { s with offset := 0, readStream := none } n).2.2.faults = s.faults :=
      (Read_pres { s with offset := 0, readStream := none } n).1
    have hm := memInv_Write
      (Reset (Read { s with offset := 0, readStream := none } n).2.2)
      (Read { s with offset := 0, readStream := none } n).1
      (by rw [show (Reset (Read { s with offset := 0, readStream := none } n).2.2).faults =
          (Read { s with offset := 0, readStream := none } n).2.2.faults from rfl, hrf]; exact hf)
      (fun _ => ⟨rfl, rfl⟩)
    split_ifs
    · exact fun hx => hm hx
    · exact fun hx => hm hx

theorem Truncate_getD_faults (s : hybridBuffer) (n : Nat) :
    ((Truncate s n).getD s).faults = s.faults := by
  unfold Truncate
  split_ifs
  · rfl
  · rfl
  · dsimp only
    have hw := (Write_pres (Reset (Read { s with offset := 0, readStream := none } n).2.2)
      (Read { s with offset := 0, readStream := none } n).1).2.1
    have hr := (Read_pres { s with offset := 0, readStream := none } n).1
    split_ifs <;> simp_all [Reset]

theorem applyOp_faults (s : hybridBuffer) (op : Op) :
    (applyOp s op).faults = s.faults := by
  cases op with
  | write d => exact (Write_pres s d).2.1
  | read k => exact (Read_pres s k).1
  | reset => rfl
  | close => rfl
  | truncate n => exact Truncate_getD_faults s n

theorem memInv_applyOp (s : hybridBuffer) (op : Op) (hf : s.faults = okFaults)
    (h : MemInv s) : MemInv (applyOp s op) := by
  cases op with
  | write d => exact memInv_Write s d hf h
  | read k => exact memInv_Read s k h
  | reset => exact fun _ => ⟨rfl, rfl⟩
  | close => exact fun hx => ⟨(h hx).1, rfl⟩
  | truncate n => exact memInv_Truncate s n hf h

theorem memInv_exec (ops : List Op) (s : hybridBuffer) (hf : s.faults = okFaults)
    (h : MemInv s) : MemInv (exec s ops) ∧ (exec s ops).faults = okFaults := by
  induction ops generalizing s with
  | nil => exact ⟨h, hf⟩
  | cons op rest ih =>
      exact ih (applyOp s op) (by rw [applyOp_faults]; exact hf)
        (memInv_applyOp s op hf h)

theorem exec_faults (ops : List Op) (s : hybridBuffer) :
    (exec s ops).faults = s.faults := by
  induction ops generalizing s with
  | nil => rfl
  | cons op rest ih =>
      rw [show exec s (op :: rest) = exec (applyOp s op) rest from rfl, ih,
        applyOp_faults]

theorem flushToStorage_usingStorage (s : hybridBuffer) :
    ((flushToStorage s).2 = none → (flushToStorage s).1.usingStorage = true) ∧
    (∀ e, (flushToStorage s).2 = some e →
      (flushToStorage s).1.usingStorage = s.usingStorage) := by
  have h := openWriteStream_pres { s with storageBackend := some [] }
  unfold flushToStorage
  split
  · refine ⟨fun _ => ?_, fun e he => ?_⟩
    · assumption
    · cases he
  · rcases hop : openWriteStream { s with storageBackend := some [] } with ⟨s2, e⟩
    rw [hop] at h
    cases e
    · dsimp only
      split_ifs <;> refine ⟨fun hx => ?_, fun e2 he2 => ?_⟩ <;> simp_all
    · exact ⟨fun hx => by simp_all, fun e2 he2 => by simp_all⟩

theorem Write_flushFail_state (s : hybridBuffer) (d : List Nat)
    (hne : d.isEmpty = false)
    (hcond : ¬s.usingStorage = true ∧ s.memoryBuffer.length + d.length > s.threshold)
    (e : GoErr) (he : (flushToStorage s).2 = some e) :
    (Write s d).2.2 = (flushToStorage s).1 := by
  unfold Write
  rw [if_neg (by simp [hne]), if_pos hcond]
  dsimp only
  rw [he]

theorem Write_flushOk_usingStorage (s : hybridBuffer) (d : List Nat)
    (hne : d.isEmpty = false)
    (hcond : ¬s.usingStorage = true ∧ s.memoryBuffer.length + d.length > s.threshold)
    (he : (flushToStorage s).2 = none) :
    (Write s d).2.2.usingStorage = true := by
  have hfl := (flushToStorage_usingStorage s).1 he
  have ho := openWriteStream_pres (flushToStorage s).1
  unfold Write
  rw [if_neg (by simp [hne]), if_pos hcond]
  dsimp only
  rw [he]
  dsimp only
  rw [if_pos hfl]
  cases hq : (openWriteStream (flushToStorage s).1).2 <;> split_ifs <;> simp_all

theorem memSize_Write (s : hybridBuffer) (d : List Nat) (h : MemSize s) :
    MemSize (Write s d).2.2 := by
  by_cases hus : s.usingStorage = true
  · intro hx
    rw [Write_usingStorage_stays s d hus] at hx
    cases hx
  · have hmode : s.usingStorage = false := by simpa using hus
    by_cases hd : d.isEmpty
    · unfold Write
      rw [if_pos hd]
      exact h
    · by_cases hgt : s.memoryBuffer.length + d.length > s.threshold
      · cases he : (flushToStorage s).2 with
        | none =>
            intro hx
            rw [Write_flushOk_usingStorage s d (by simpa using hd)
              ⟨by simp [hmode], hgt⟩ he] at hx
            cases hx
        | some e =>
            rw [Write_flushFail_state s d (by simpa using hd)
              ⟨by simp [hmode], hgt⟩ e he]
            intro _
            have hp := flushToStorage_pres s
            rw [hp.2.2.2.1, hp.2.2.2.2.1]
            exact h hmode
      · rw [Write_memory_no_spill s d hmode hgt, if_neg hd]
        intro _
        have hx := h hmode
        simp [hx]

theorem memSize_Read (s : hybridBuffer) (k : Nat) (h : MemSize s) :
    MemSize (Read s k).2.2 := by
  unfold Read
  split
  · exact h
  · have hc := closeWriteStreamQuiet_pres s
    dsimp only
    split_ifs with hus
    · intro hx
      have hx2 : (closeWriteStreamQuiet s).usingStorage = false := hx
      rw [hus] at hx2
      cases hx2
    all_goals
      intro _
      have hmode : s.usingStorage = false := by
        rw [hc.2.2.2.2.2.2.2] at hus
        simpa using hus
      show (closeWriteStreamQuiet s).size = (closeWriteStreamQuiet s).memoryBuffer.length
      rw [hc.2.2.2.1, hc.2.2.2.2.1]
      exact h hmode

theorem memSize_Truncate (s : hybridBuffer) (n : Nat) (h : MemSize s) :
    MemSize ((Truncate s n).getD s) := by
  unfold Truncate
  split_ifs
  · exact h
  · intro _
    rfl
  · dsimp only
    have hm := memSize_Write
      (Reset (Read { s with offset := 0, readStream := none } n).2.2)
      (Read { s with offset := 0, readStream := none } n).1 (fun _ => rfl)
    split_ifs
    · exact fun hx => hm hx
    · exact fun hx => hm hx

theorem memSize_applyOp (s : hybridBuffer) (op : Op) (h : MemSize s) :
    MemSize (applyOp s op) := by
  cases op with
  | write d => exact memSize_Write s d h
  | read k => exact memSize_Read s k h
  | reset => exact fun _ => rfl
  | close => exact fun hx => h hx
  | truncate n => exact memSize_Truncate s n h

theorem memSize_exec (ops : List Op) (s : hybridBuffer) (h : MemSize s) :
    MemSize (exec s ops) := by
  induction ops generalizing s with
  | nil => exact h
  | cons op rest ih => exact ih (applyOp s op) (memSize_applyOp s op h)

theorem Read_memory_shape (s : hybridBuffer) (k : Nat)
    (hmode : s.usingStorage = false) (hsz : s.size = s.memoryBuffer.length)
    (hlt : s.offset < s.size) :
    (Read s k).1 = (s.memoryBuffer.drop s.offset).take (min k (s.size - s.offset)) ∧
    (Read s k).1.length = min k (s.size - s.offset) ∧
    (Read s k).2.1 = none ∧
    (Read s k).2.2 = { closeWriteStreamQuiet s with
      offset := s.offset + min k (s.size - s.offset) } := by
  have hc := closeWriteStreamQuiet_pres s
  unfold Read
  rw [if_neg (Nat.not_le.mpr hlt)]
  dsimp only
  rw [if_neg (by rw [hc.2.2.2.2.2.2.2]; simp [hmode])]
  rw [if_pos (by rw [hc.2.2.1, hc.2.2.2.2.1]; omega)]
  rw [hc.2.2.1, hc.2.2.2.1, hc.2.2.2.2.1]
  have hlen : ((s.memoryBuffer.drop s.offset).take (min k (s.size - s.offset))).length
      = min k (s.size - s.offset) := by
    simp only [List.length_take, List.length_drop]
    omega
  refine ⟨rfl, hlen, rfl, ?_⟩
  rw [hlen]

/-! ## Theorems -/

/-- Claim C1: the claim states that for every pipeline of individually
lossless transforms the write/read round trip is the identity on byte
sequences.  The code violates this: with the two lossless transforms `revT`
(reverse/reverse) and `padT` (prepend 7 / drop head), a buffer with
threshold 1 (forcing the spill), after writing `[1,2]`, reading to
end-of-stream returns `[7,1]`, not `[1,2]`.  The cause is the middleware
wiring: `openWriteStream` wraps the store writer iterating forward over the
middleware list while `openReadStream` wraps the store reader iterating
backward, so the decoder chain is applied in the same order as the encoder
chain instead of the reverse order. -/
theorem roundtrip_breaks_with_two_lossless_transforms :
    (∀ s : List Nat, revT.dec (revT.enc s) = s) ∧
    (∀ s : List Nat, padT.dec (padT.enc s) = s) ∧
    (Read (exec (mkBuffer 1 [revT, padT] okFaults) [Op.write [1, 2]]) 10).1 = [7, 1] ∧
    ([7, 1] : List Nat) ≠ [1, 2] := by
  refine ⟨fun s => ?_, fun s => rfl, by decide, by decide⟩
  simp [revT]

/-- Claim C2, counterexample: the claim states that the write stream is the
nesting `T1.wrap_writer( ... Tn.wrap_writer(store) ... )`, so that the store
receives `Tn.enc ( ... T1.enc s ... )` (`specStoreBytes`).  With the pipeline
`[revT, padT]` and caller bytes `[1,2]`, the blob the running buffer actually
commits is `encStore [revT, padT] [1,2] = [2,1,7]` — `T1.enc (T2.enc s)`, the
first transform adjacent to the store — while the claimed nesting would
commit `specStoreBytes [revT, padT] [1,2] = [7,2,1]`; and the bytes the
user-visible reader yields are `decUser [revT, padT] blob` — `Tn`'s reader
adjacent to the store — not the claimed nesting with `T1`'s reader adjacent
to the store. -/
theorem pipeline_nesting_reversed_from_claim :
    (exec (mkBuffer 1 [revT, padT] okFaults)
        [Op.write [1, 2], Op.read 1]).storageBackend = some [2, 1, 7] ∧
    encStore [revT, padT] [1, 2] = [2, 1, 7] ∧
    specStoreBytes [revT, padT] [1, 2] = [7, 2, 1] ∧
    ([2, 1, 7] : List Nat) ≠ [7, 2, 1] := by
  refine ⟨by decide, by decide, by decide, by decide⟩

/-- Claim C2, amended: for a buffer with pipeline `[T1, ..., Tn]`, the write
stream is the nesting `Tn.wrap_writer( ... T1.wrap_writer(store_writer) ... )`
— `Tn` receives the caller's bytes and `T1`'s output reaches the store — and
the read stream is the nesting `T1.wrap_reader( ... Tn.wrap_reader(store_reader) ... )`
— `Tn`'s reader adjacent to the store, `T1`'s reader yielding the caller's
bytes; with an empty pipeline both streams are exactly the store streams.
The fold equations state the nesting; the `Read` equations tie it to the
buffer: closing the write stream commits `encStore middlewares u` as the
blob, and the read stream serves `decUser middlewares blob`. -/
theorem pipeline_nesting_in_code (ms : List Transform) (t : Transform) (u b : List Nat)
    (s : hybridBuffer) (k : Nat)
    (h1 : s.usingStorage = true) (h2 : s.writeStream = some u)
    (h3 : s.readStream = none) (h4 : s.offset < s.size) :
    encStore [] u = u ∧ decUser [] b = b ∧
    encStore (t :: ms) u = t.enc (encStore ms u) ∧
    decUser (t :: ms) b = t.dec (decUser ms b) ∧
    encStore (ms ++ [t]) u = encStore ms (t.enc u) ∧
    decUser (ms ++ [t]) b = decUser ms (t.dec b) ∧
    (Read s k).2.2.storageBackend = some (encStore s.middlewares u) ∧
    (Read s k).1 =
      (decUser s.middlewares (encStore s.middlewares u)).take (min k (s.size - s.offset)) := by
  refine ⟨rfl, rfl, rfl, rfl, by simp [encStore], by simp [decUser], ?_, ?_⟩ <;>
    simp [Read, closeWriteStreamQuiet, h1, h2, h3, Nat.not_le.mpr h4]

/-- Witness for the amended C2 theorem at a concrete spill-phase state. -/
theorem pipeline_nesting_in_code_witness :
    (Read (exec (mkBuffer 1 [revT, padT] okFaults) [Op.write [1, 2]]) 10).2.2.storageBackend =
      some (encStore [revT, padT] [1, 2]) :=
  (pipeline_nesting_in_code [revT, padT] revT [1, 2] [3]
      (exec (mkBuffer 1 [revT, padT] okFaults) [Op.write [1, 2]]) 10
      (by decide) (by decide) (by decide) (by decide)).2.2.2.2.2.2.1

/-- Claim C9: `Cap` returns the same value as `Len`, namely `size - offset`
(the count of unread bytes), in every buffer state; it does not report the
capacity of the memory region. -/
theorem cap_equals_len_equals_unread (s : hybridBuffer) :
    Cap s = Len s ∧ Len s = s.size - s.offset :=
  ⟨rfl, rfl⟩

/-- Claim C4, counterexample: the claim states the write stream and the read
stream are never both present in any reachable state.  With threshold 1 and
no middleware, after `Write [1,2]` (spill), `Read 1` (write stream finalized,
read stream opened) and `Write [3]` (performed after draining began), the
code re-opens the write stream while the read stream is still present: both
streams are live at once. -/
theorem both_streams_live_after_append_in_drain :
    ((exec (mkBuffer 1 [] okFaults)
        [Op.write [1, 2], Op.read 1, Op.write [3]]).writeStream).isSome = true ∧
    ((exec (mkBuffer 1 [] okFaults)
        [Op.write [1, 2], Op.read 1, Op.write [3]]).readStream).isSome = true := by
  exact ⟨by decide, by decide⟩

theorem Read_eof (s : hybridBuffer) (k : Nat) (h : s.size ≤ s.offset) :
    Read s k = ([], some GoErr.eof, s) := by
  unfold Read; rw [if_pos h]

theorem Read_writeStream_none (s : hybridBuffer) (k : Nat) (h : s.offset < s.size) :
    (Read s k).2.2.writeStream = none := by
  have hc := closeWriteStreamQuiet_writeStream s
  unfold Read
  rw [if_neg (Nat.not_le.mpr h)]
  dsimp only
  split_ifs <;> simp_all

/-- Claim C4, amended: `Read` always finalizes a live write stream before any
read stream is opened (after a byte-serving `Read` the write stream is gone),
and every public operation other than `Write` preserves mutual exclusion of
the two streams — so in every state reachable without an append after
draining began, the write stream and the read stream are never both present.
Only a `Write` issued after reading has begun in spill mode re-opens the
write stream while the read stream is still present (the counterexample). -/
theorem streams_never_both_live_without_drain_append (s t : hybridBuffer) (k n : Nat)
    (hs : ¬(s.writeStream.isSome = true ∧ s.readStream.isSome = true)) :
    (s.offset < s.size → (Read s k).2.2.writeStream = none) ∧
    ¬((Read s k).2.2.writeStream.isSome = true ∧
      (Read s k).2.2.readStream.isSome = true) ∧
    ¬((Reset s).writeStream.isSome = true ∧ (Reset s).readStream.isSome = true) ∧
    ¬(((Close s).2).writeStream.isSome = true ∧ ((Close s).2).readStream.isSome = true) ∧
    (Truncate s n = some t →
      ¬(t.writeStream.isSome = true ∧ t.readStream.isSome = true)) := by
  refine ⟨fun h => Read_writeStream_none s k h, ?_, by simp [Reset], by simp [Close], ?_⟩
  · by_cases h : s.offset < s.size
    · simp [Read_writeStream_none s k h]
    · rw [Read_eof s k (Nat.not_lt.mp h)]
      exact hs
  · intro hTr
    unfold Truncate at hTr
    split_ifs at hTr
    · rw [Option.some.injEq] at hTr
      subst hTr
      simp [Reset]
    · rw [Option.some.injEq] at hTr
      subst hTr
      have hw := (Write_pres (Reset (Read { s with offset := 0, readStream := none } n).2.2)
        (Read { s with offset := 0, readStream := none } n).1).1
      split_ifs <;> simp_all [Reset]

/-- Witness for the amended C4 theorem at a concrete state. -/
theorem streams_never_both_live_without_drain_append_witness :
    ¬((Read (mkBuffer 1 [] okFaults) 5).2.2.writeStream.isSome = true ∧
      (Read (mkBuffer 1 [] okFaults) 5).2.2.readStream.isSome = true) :=
  (streams_never_both_live_without_drain_append (mkBuffer 1 [] okFaults)
    (mkBuffer 1 [] okFaults) 5 0 (by decide)).2.1

/-- Claim C6, amended: `Close` releases the write stream and the read stream
and removes the store, attempting every release step even when an earlier
step fails, returns the LAST non-trivial error encountered (each failing
step overwrites the collected error), and a second `Close` is a no-op
returning no error. -/
theorem close_releases_all_last_error_idempotent (s : hybridBuffer) :
    (Close s).2.writeStream = none ∧
    (Close s).2.readStream = none ∧
    (Close s).2.storageBackend = none ∧
    (Close s).1 =
      (if s.storageBackend.isSome = true ∧ s.faults.removeFail = true then
        some GoErr.removeFailed
       else if s.readStream.isSome = true ∧ s.faults.closeRFail = true then
        some GoErr.closeReadFailed
       else if s.writeStream.isSome = true ∧ s.faults.closeWFail = true then
        some GoErr.closeWriteFailed
       else none) ∧
    Close ((Close s).2) = (none, (Close s).2) := by
  refine ⟨rfl, rfl, rfl, ?_, ?_⟩
  · unfold Close
    dsimp only
    split_ifs <;> simp_all [Option.orElse]
  · unfold Close
    dsimp only
    simp

/-- Claim C5, counterexample: the claim states that after `Truncate n` the
read position is `min(offset, n)`.  With threshold 100, after writing
`[0,1,2,3,4]` and reading 3 bytes (`offset = 3`), `Truncate 3` leaves
`offset = 0` (the code restores the old offset only when it is strictly
smaller than the count re-read), not `min(3, 3) = 3`; the already-consumed
bytes `[0,1,2]` are served again. -/
theorem truncate_zeroes_offset_at_or_past_bound :
    (exec (mkBuffer 100 [] okFaults)
        [Op.write [0, 1, 2, 3, 4], Op.read 3, Op.truncate 3]).offset = 0 ∧
    min 3 3 = 3 ∧ (0 : Nat) ≠ 3 ∧
    (Read (exec (mkBuffer 100 [] okFaults)
        [Op.write [0, 1, 2, 3, 4], Op.read 3, Op.truncate 3]) 10).1 = [0, 1, 2] := by
  exact ⟨by decide, rfl, by decide, by decide⟩

theorem isEmpty_false_of_length_eq (v : List Nat) (n : Nat) (hlen : v.length = n)
    (hpos : 0 < n) : v.isEmpty = false := by
  cases v with
  | nil => simp at hlen; omega
  | cons a l => rfl

theorem Truncate_decompose (s : hybridBuffer) (n : Nat) (sv : List Nat)
    (hn0 : ¬n = 0) (hnsz : ¬n > s.size)
    (hsv : (Read { s with offset := 0, readStream := none } n).1 = sv)
    (hlen : sv.length = n) :
    Truncate s n = some
      (if s.offset < n then
        { (Write (Reset (Read { s with offset := 0, readStream := none } n).2.2) sv).2.2 with
            offset := s.offset }
       else
        (Write (Reset (Read { s with offset := 0, readStream := none } n).2.2) sv).2.2) := by
  unfold Truncate
  rw [if_neg hnsz, if_neg hn0]
  dsimp only
  rw [hsv, hlen]

theorem Reset_Read_clean (s1 : hybridBuffer) (n : Nat) :
    Reset (Read s1 n).2.2 =
      ⟨s1.threshold, 0, 0, [], none, none, none, s1.middlewares, false, s1.faults⟩ := by
  have hp := Read_pres s1 n
  unfold Reset
  rw [hp.2.1, hp.2.2.1, hp.1]

theorem Write_after_reset (th : Nat) (ms : List Transform) (v : List Nat)
    (hne : v.isEmpty = false) :
    (Write ⟨th, 0, 0, [], none, none, none, ms, false, okFaults⟩ v).2.2 =
      if v.length ≤ th then ⟨th, v.length, 0, v, none, none, none, ms, false, okFaults⟩
      else ⟨th, v.length, 0, [], some [], some v, none, ms, true, okFaults⟩ := by
  by_cases hth : v.length ≤ th
  · rw [if_pos hth]
    simp [Write, hne, Nat.not_lt.mpr hth]
  · rw [if_neg hth]
    simp [Write, flushToStorage, openWriteStream, okFaults, hne, Nat.not_le.mp hth]

theorem Read_start_memory (th : Nat) (mem : List Nat) (st2 ws2 : Option (List Nat))
    (ms : List Transform) (f : StreamModel) (n : Nat) (hpos : 0 < n)
    (hn : n ≤ mem.length) :
    (Read ⟨th, mem.length, 0, mem, st2, ws2, none, ms, false, f⟩ n).1 = mem.take n := by
  cases ws2 <;>
    simp [Read, closeWriteStreamQuiet, show ¬mem.length ≤ 0 by omega,
      show (0 : Nat) < mem.length by omega, Nat.min_eq_left hn]

theorem Read_start_spill_append (th : Nat) (mem u : List Nat) (st2 : Option (List Nat))
    (ms : List Transform) (n : Nat)
    (hloss : ∀ b, decUser ms (encStore ms b) = b)
    (hpos : 0 < n) (hn : n ≤ u.length) :
    (Read ⟨th, u.length, 0, mem, st2, some u, none, ms, true, okFaults⟩ n).1 =
      u.take n := by
  simp [Read, closeWriteStreamQuiet, show ¬u.length ≤ 0 by omega, hloss,
    Nat.min_eq_left hn]

theorem Read_start_spill_drain (th : Nat) (mem : List Nat) (st2 : Option (List Nat))
    (ms : List Transform) (n : Nat) (hpos : 0 < n)
    (hn : n ≤ (decUser ms (st2.getD [])).length) :
    (Read ⟨th, (decUser ms (st2.getD [])).length, 0, mem, st2, none, none, ms, true,
      okFaults⟩ n).1 = (decUser ms (st2.getD [])).take n := by
  simp [Read, closeWriteStreamQuiet,
    show ¬(decUser ms (st2.getD [])).length ≤ 0 by omega, Nat.min_eq_left hn]

theorem Read_fresh_memory (th n off2 : Nat) (L : List Nat) (ms : List Transform)
    (f : StreamModel) (hlen : L.length = n) (hlt : off2 < n) :
    (Read ⟨th, n, off2, L, none, none, none, ms, false, f⟩ (n - off2)).1 =
      L.drop off2 := by
  have h1 : ¬n ≤ off2 := by omega
  have h2 : off2 < L.length := by omega
  have h3 : (L.drop off2).length ≤ n - off2 := by simp [hlen]
  simp [Read, closeWriteStreamQuiet, h1, h2, Nat.min_self,
    List.take_of_length_le h3]

theorem Read_fresh_spill (th n off2 : Nat) (L : List Nat) (ms : List Transform)
    (hloss : ∀ b, decUser ms (encStore ms b) = b) (hlt : off2 < n) :
    (Read ⟨th, n, off2, [], some [], some L, none, ms, true, okFaults⟩ (n - off2)).1 =
      L.take (n - off2) := by
  have h1 : ¬n ≤ off2 := by omega
  simp [Read, closeWriteStreamQuiet, h1, hloss, Nat.min_self]

theorem truncate_contract_core (th sz off : Nat) (mem L : List Nat)
    (st ws rs : Option (List Nat)) (ms : List Transform) (us : Bool) (n : Nat)
    (hloss : ∀ b, decUser ms (encStore ms b) = b)
    (hpos : 0 < n) (hn : n ≤ sz)
    (hsv : (Read ⟨th, sz, 0, mem, st, ws, none, ms, us, okFaults⟩ n).1 = L.take n)
    (hLen : L.length = sz) :
    ∃ t, Truncate ⟨th, sz, off, mem, st, ws, rs, ms, us, okFaults⟩ n = some t ∧
      t.size = n ∧ t.offset = (if off < n then off else 0) ∧
      (Read t (n - t.offset)).1 =
        (if n ≤ th then (L.take n).drop t.offset
         else (L.take n).take (n - t.offset)) := by
  have hsvlen : (L.take n).length = n := by
    rw [List.length_take, hLen]
    omega
  have hne := isEmpty_false_of_length_eq (L.take n) n hsvlen hpos
  have htr := Truncate_decompose ⟨th, sz, off, mem, st, ws, rs, ms, us, okFaults⟩ n
    (L.take n) (by omega) (show ¬n > sz by omega) hsv hsvlen
  rw [Reset_Read_clean] at htr
  dsimp only at htr
  rw [Write_after_reset th ms (L.take n) hne, hsvlen] at htr
  by_cases hoff : off < n
  · rw [if_pos hoff] at htr
    by_cases hth : n ≤ th
    · rw [if_pos hth] at htr
      refine ⟨_, htr, rfl, by simp [hoff], ?_⟩
      have hr := Read_fresh_memory th n off (L.take n) ms okFaults hsvlen hoff
      simpa [hth, hoff] using hr
    · rw [if_neg hth] at htr
      refine ⟨_, htr, rfl, by simp [hoff], ?_⟩
      have hr := Read_fresh_spill th n off (L.take n) ms hloss hoff
      simpa [hth, hoff] using hr
  · rw [if_neg hoff] at htr
    by_cases hth : n ≤ th
    · rw [if_pos hth] at htr
      refine ⟨_, htr, rfl, by simp [hoff], ?_⟩
      have hr := Read_fresh_memory th n 0 (L.take n) ms okFaults hsvlen hpos
      simpa [hth, hoff] using hr
    · rw [if_neg hth] at htr
      refine ⟨_, htr, rfl, by simp [hoff], ?_⟩
      have hr := Read_fresh_spill th n 0 (L.take n) ms hloss hpos
      simpa [hth, hoff] using hr

/-- Claim C5, amended: after `Truncate n` with `0 <= n <= size`, on a
well-formed buffer whose pipeline round-trips under the code's wiring
(`decUser` after `encStore` is the identity — the empty pipeline and single
lossless transforms qualify) and whose logical content length equals `size`:
the total size equals `n`; the read position equals the old offset when that
is strictly below `n` and `0` otherwise (not `min(offset, n)`); and consuming
all remaining bytes yields the first `n` bytes of the pre-truncate logical
content from the new read position on whenever the re-appended prefix stays
in memory (`n <= threshold`), while a truncate that re-spills
(`n > threshold`) instead re-serves the first `n - offset` bytes of that
prefix, because the fresh read stream restarts at byte zero.  Covers memory
mode, the spill append phase and the spill drain phase. -/
theorem truncate_contract (s : hybridBuffer) (n : Nat)
    (hf : s.faults = okFaults)
    (hloss : ∀ b, decUser s.middlewares (encStore s.middlewares b) = b)
    (hLC : (logicalContent s).length = s.size)
    (hn : n ≤ s.size) :
    ∃ t, Truncate s n = some t ∧
      t.size = n ∧
      t.offset = (if s.offset < n then s.offset else 0) ∧
      (Read t (n - t.offset)).1 =
        (if n ≤ s.threshold then ((logicalContent s).take n).drop t.offset
         else ((logicalContent s).take n).take (n - t.offset)) := by
  obtain ⟨th, sz, off, mem, st, ws, rs, ms, us, f⟩ := s
  dsimp only at hf hloss hLC hn ⊢
  subst hf
  by_cases hn0 : n = 0
  · subst hn0
    refine ⟨Reset ⟨th, sz, off, mem, st, ws, rs, ms, us, okFaults⟩, ?_, rfl,
      by simp [Reset], by simp [Read, Reset]⟩
    unfold Truncate
    rw [if_neg (show ¬0 > sz by omega)]
    rfl
  · have hpos : 0 < n := Nat.pos_of_ne_zero hn0
    cases us with
    | false =>
        simp only [logicalContent] at hLC ⊢
        subst hLC
        exact truncate_contract_core th mem.length off mem mem st ws rs ms false n
          hloss hpos hn
          (Read_start_memory th mem st ws ms okFaults n hpos hn) rfl
    | true =>
        cases ws with
        | none =>
            simp only [logicalContent] at hLC ⊢
            subst hLC
            exact truncate_contract_core th (decUser ms (st.getD [])).length off mem
              (decUser ms (st.getD [])) st none rs ms true n hloss hpos hn
              (Read_start_spill_drain th mem st ms n hpos hn) rfl
        | some u =>
            simp only [logicalContent] at hLC ⊢
            subst hLC
            exact truncate_contract_core th u.length off mem u st (some u) rs ms true n
              hloss hpos hn
              (Read_start_spill_append th mem u st ms n hloss hpos hn) rfl

/-- Witness for the amended C5 theorem: truncating a memory buffer holding
`[0,1,2,3,4]` with 3 bytes consumed down to 3 bytes. -/
theorem truncate_contract_witness :
    ∃ t, Truncate (exec (mkBuffer 100 [] okFaults)
        [Op.write [0, 1, 2, 3, 4], Op.read 3]) 3 = some t ∧
      t.size = 3 ∧
      t.offset = (if (exec (mkBuffer 100 [] okFaults)
        [Op.write [0, 1, 2, 3, 4], Op.read 3]).offset < 3 then
          (exec (mkBuffer 100 [] okFaults) [Op.write [0, 1, 2, 3, 4], Op.read 3]).offset
        else 0) ∧
      (Read t (3 - t.offset)).1 =
        (if 3 ≤ (exec (mkBuffer 100 [] okFaults)
            [Op.write [0, 1, 2, 3, 4], Op.read 3]).threshold then
          ((logicalContent (exec (mkBuffer 100 [] okFaults)
            [Op.write [0, 1, 2, 3, 4], Op.read 3])).take 3).drop t.offset
         else
          ((logicalContent (exec (mkBuffer 100 [] okFaults)
            [Op.write [0, 1, 2, 3, 4], Op.read 3])).take 3).take (3 - t.offset)) :=
  truncate_contract (exec (mkBuffer 100 [] okFaults) [Op.write [0, 1, 2, 3, 4], Op.read 3]) 3
    rfl (fun b => rfl) (by decide) (by decide)

/-- Claim C6, counterexample: the claim states `Close` returns the first
non-trivial error encountered.  With a backend whose write-stream close and
blob removal both fail, a spilled buffer's `Close` encounters the
write-stream close error first but returns the removal error — the last one,
because each failing step overwrites `lastErr`. -/
theorem close_returns_last_error_not_first :
    (Close (exec (mkBuffer 1 [] badCloseFaults) [Op.write [1, 2]])).1 =
      some GoErr.removeFailed ∧
    some GoErr.removeFailed ≠ some GoErr.closeWriteFailed := by
  exact ⟨by decide, by decide⟩

/-- Claim C3: an append on a memory-mode buffer triggers the spill transition
exactly when current memory length plus incoming length is strictly greater
than the threshold, and the transition runs before the triggering bytes are
written: the store factory is invoked (a fresh backend is present), a
pipeline-wrapped write stream is opened, the entire current memory content is
written through that stream ahead of the triggering bytes (the stream holds
`memoryBuffer ++ data`, in that order), the mode becomes spill, and only then
are the triggering bytes written; an append that does not cross the threshold
stays in memory and touches no store. -/
theorem write_spills_exactly_above_threshold (s : hybridBuffer) (data : List Nat)
    (hmode : s.usingStorage = false) (hws : s.writeStream = none)
    (hf : s.faults = okFaults) (hne : data ≠ []) :
    (if s.memoryBuffer.length + data.length > s.threshold then
      (Write s data).2.2.usingStorage = true ∧
      (Write s data).2.2.storageBackend = some [] ∧
      (Write s data).2.2.writeStream = some (s.memoryBuffer ++ data) ∧
      (Write s data).2.2.memoryBuffer = s.memoryBuffer
     else
      (Write s data).2.2.usingStorage = false ∧
      (Write s data).2.2.storageBackend = s.storageBackend ∧
      (Write s data).2.2.writeStream = none ∧
      (Write s data).2.2.memoryBuffer = s.memoryBuffer ++ data) ∧
    (Write s data).1 = data.length ∧
    (Write s data).2.1 = none ∧
    (Write s data).2.2.size = s.size + data.length := by
  have hne' : data.isEmpty = false := by simpa [List.isEmpty_iff] using hne
  obtain ⟨th, sz, off, mem, st, ws, rs, ms, us, f⟩ := s
  dsimp only at hmode hws hf ⊢
  subst hmode; subst hws; subst hf
  by_cases hgt : mem.length + data.length > th
  · by_cases hmem : mem = []
    · subst hmem
      have hgt' : th < data.length := by simpa using hgt
      simp [Write, flushToStorage, openWriteStream, okFaults, hgt', hne', List.take_length]
    · simp [Write, flushToStorage, openWriteStream, okFaults, hgt, hne', hmem,
        List.take_length, List.isEmpty_iff]
  · simp [Write, hgt, hne']

/-- Witness for the C3 theorem: a buffer holding `[1]` with threshold 2
spills on `Write [2,3]`, the stream receiving the memory prefix first. -/
theorem write_spills_exactly_above_threshold_witness :
    (Write (exec (mkBuffer 2 [] okFaults) [Op.write [1]]) [2, 3]).2.2.writeStream =
      some ((exec (mkBuffer 2 [] okFaults) [Op.write [1]]).memoryBuffer ++ [2, 3]) := by
  have h := write_spills_exactly_above_threshold
    (exec (mkBuffer 2 [] okFaults) [Op.write [1]]) [2, 3]
    (by decide) (by decide) rfl (by decide)
  rw [if_pos (by decide)] at h
  exact h.1.2.2.1

/-- Claim C7: if the memory-to-spill transition fails — the store cannot be
created, or writing the memory prefix through the fresh stream fails — the
triggering append returns the error and writes nothing, and the buffer stays
in memory mode with its size, content and read position unchanged from
before the failing call, so the caller can keep using it and retry. -/
theorem failed_spill_leaves_buffer_intact (s : hybridBuffer) (data : List Nat)
    (hmode : s.usingStorage = false) (hws : s.writeStream = none)
    (hne : data ≠ []) (hgt : s.memoryBuffer.length + data.length > s.threshold)
    (hfail : s.faults.createFail = true ∨
      (s.memoryBuffer ≠ [] ∧ (s.faults.writeFun [] s.memoryBuffer).2 = true)) :
    (Write s data).1 = 0 ∧
    (Write s data).2.1.isSome = true ∧
    (Write s data).2.2.usingStorage = false ∧
    (Write s data).2.2.size = s.size ∧
    (Write s data).2.2.memoryBuffer = s.memoryBuffer ∧
    (Write s data).2.2.offset = s.offset := by
  have hne' : data.isEmpty = false := by simpa [List.isEmpty_iff] using hne
  by_cases hcf : s.faults.createFail = true
  · simp_all [Write, flushToStorage, openWriteStream]
  · rcases hfail with hfail | ⟨hm, hwf⟩
    · exact absurd hfail hcf
    · simp_all [Write, flushToStorage, openWriteStream, List.isEmpty_iff]

/-- Witness for the C7 theorem: a backend whose creation fails aborts the
spill of a buffer holding `[1]`, leaving it unchanged in memory mode. -/
theorem failed_spill_leaves_buffer_intact_witness :
    (Write (exec (mkBuffer 2 [] createFailFaults) [Op.write [1]]) [2, 3]).2.2.size =
      (exec (mkBuffer 2 [] createFailFaults) [Op.write [1]]).size :=
  (failed_spill_leaves_buffer_intact
    (exec (mkBuffer 2 [] createFailFaults) [Op.write [1]]) [2, 3]
    (by decide) (by decide) (by decide) (by decide) (Or.inl rfl)).2.2.2.1

/-- Claim C8, amended: when a write to the spill write stream reports an
error, the error propagates to the caller together with the acknowledged
byte count and the acknowledged bytes are appended to the stream, but `size`
is increased by the acknowledged count only when no error is reported; on a
reported error `size` is left unchanged (the code increments `size` only for
error-free calls). -/
theorem write_stream_result_propagates (s : hybridBuffer) (u data : List Nat)
    (hmode : s.usingStorage = true) (hws : s.writeStream = some u) (hne : data ≠ []) :
    (Write s data).1 = (s.faults.writeFun u data).1 ∧
    (Write s data).2.1 =
      (if (s.faults.writeFun u data).2 = true then some GoErr.writeFailed else none) ∧
    (Write s data).2.2.size =
      (if (s.faults.writeFun u data).2 = true then s.size
       else s.size + (s.faults.writeFun u data).1) ∧
    (Write s data).2.2.writeStream =
      some (u ++ data.take (s.faults.writeFun u data).1) := by
  have hne' : data.isEmpty = false := by simpa [List.isEmpty_iff] using hne
  by_cases hrb : (s.faults.writeFun u data).2 = true <;>
    simp_all [Write, openWriteStream]

/-- Witness for the amended C8 theorem at a stream acknowledging 3 bytes
while erroring. -/
theorem write_stream_result_propagates_witness :
    (Write (exec (mkBuffer 1 [] ackThenFailFaults) [Op.write [1, 2]]) [5, 6, 7, 8, 9]).2.2.writeStream =
      some ([1, 2] ++ [5, 6, 7, 8, 9].take 3) :=
  (write_stream_result_propagates
    (exec (mkBuffer 1 [] ackThenFailFaults) [Op.write [1, 2]]) [1, 2] [5, 6, 7, 8, 9]
    (by decide) (by decide) (by decide)).2.2.2

/-- Claim C8, counterexample: the claim states that on a write-stream error
`size` is increased by exactly the acknowledged count.  With a stream that
acknowledges 3 bytes of `[5,6,7,8,9]` while reporting an error, the call
returns the count 3 together with the error, but `size` stays at 2 (the code
increments `size` only when no error is reported), not `2 + 3 = 5`. -/
theorem write_error_leaves_size_unchanged :
    (Write (exec (mkBuffer 1 [] ackThenFailFaults) [Op.write [1, 2]]) [5, 6, 7, 8, 9]).1 = 3 ∧
    (Write (exec (mkBuffer 1 [] ackThenFailFaults) [Op.write [1, 2]]) [5, 6, 7, 8, 9]).2.1 =
      some GoErr.writeFailed ∧
    (Write (exec (mkBuffer 1 [] ackThenFailFaults) [Op.write [1, 2]]) [5, 6, 7, 8, 9]).2.2.size = 2 ∧
    (2 : Nat) + 3 ≠ 2 := by
  exact ⟨by decide, by decide, by decide, by decide⟩

/-- Claim C10, counterexample: the claim states that in memory mode `Read`
proceeds without invoking the store factory, the store, or any transform.
A failed spill whose memory-prefix write errors leaves a reachable
memory-mode state with a live stale write stream (`flushToStorage` opened it,
the prefix write failed, `usingStorage` stayed off); `Read` on that state
first closes the stale stream — cascading the middleware finalizations and
committing the blob — so its post-state is not the claimed offset-only
change, although the read itself still serves the memory bytes with no
error. -/
theorem memory_read_closes_stale_stream :
    (exec (mkBuffer 2 [] memWriteFailFaults)
      [Op.write [1], Op.write [2, 3]]).usingStorage = false ∧
    (exec (mkBuffer 2 [] memWriteFailFaults)
      [Op.write [1], Op.write [2, 3]]).writeStream = some [] ∧
    (Read (exec (mkBuffer 2 [] memWriteFailFaults)
      [Op.write [1], Op.write [2, 3]]) 1).1 = [1] ∧
    (Read (exec (mkBuffer 2 [] memWriteFailFaults)
      [Op.write [1], Op.write [2, 3]]) 1).2.1 = none ∧
    (Read (exec (mkBuffer 2 [] memWriteFailFaults)
      [Op.write [1], Op.write [2, 3]]) 1).2.2.writeStream = none ∧
    (Read (exec (mkBuffer 2 [] memWriteFailFaults)
        [Op.write [1], Op.write [2, 3]]) 1).2.2 ≠
      { exec (mkBuffer 2 [] memWriteFailFaults) [Op.write [1], Op.write [2, 3]] with
          offset := (exec (mkBuffer 2 [] memWriteFailFaults)
              [Op.write [1], Op.write [2, 3]]).offset +
            min 1 ((exec (mkBuffer 2 [] memWriteFailFaults)
                [Op.write [1], Op.write [2, 3]]).size -
              (exec (mkBuffer 2 [] memWriteFailFaults)
                [Op.write [1], Op.write [2, 3]]).offset) } := by
  refine ⟨by decide, by decide, by decide, by decide, by decide, fun h => ?_⟩
  have h2 := congrArg hybridBuffer.writeStream h
  exact absurd h2 (by decide)

/-- Claim C10, amended: in memory mode `Read` never fails: for every state
reachable by public operations from a fresh buffer over ANY backend
behaviour (failing ones included), when the buffer is not using storage,
`Read` returns end-of-stream exactly when `offset >= size` at the time of
the call (leaving the state fully unchanged), and otherwise serves
`min k (size - offset)` bytes of the memory content at the read position
with no error; beyond the read position the post-state changes only by the
closing of a stale write stream left behind by a failed spill, and with a
fault-free backend no such stream exists, so nothing but the read position
changes and no store factory, store or transform is involved. -/
theorem memory_read_never_fails (th : Nat) (ms : List Transform) (f : StreamModel)
    (ops : List Op) (k : Nat) (s : hybridBuffer)
    (hs : s = exec (mkBuffer th ms f) ops)
    (hmode : s.usingStorage = false) :
    (s.size ≤ s.offset → Read s k = ([], some GoErr.eof, s)) ∧
    (s.offset < s.size →
      (Read s k).1 = (s.memoryBuffer.drop s.offset).take (min k (s.size - s.offset)) ∧
      (Read s k).1.length = min k (s.size - s.offset) ∧
      (Read s k).2.1 = none ∧
      (Read s k).2.2 = { closeWriteStreamQuiet s with
        offset := s.offset + min k (s.size - s.offset) }) ∧
    (s.writeStream = none → closeWriteStreamQuiet s = s) ∧
    (f = okFaults → s.writeStream = none) ∧
    (f = okFaults → s.offset < s.size →
      (Read s k).2.2 = { s with offset := s.offset + min k (s.size - s.offset) }) := by
  have hsz : s.size = s.memoryBuffer.length := by
    have hms := memSize_exec ops (mkBuffer th ms f) (fun _ => rfl)
    rw [← hs] at hms
    exact hms hmode
  have hclosenone : s.writeStream = none → closeWriteStreamQuiet s = s := by
    intro hws
    unfold closeWriteStreamQuiet
    rw [hws]
  have hwsnone : f = okFaults → s.writeStream = none := by
    intro hfok
    subst hfok
    have hinv := (memInv_exec ops (mkBuffer th ms okFaults) rfl (fun _ => ⟨rfl, rfl⟩)).1
    rw [← hs] at hinv
    exact (hinv hmode).2
  refine ⟨fun h => Read_eof s k h, fun hlt => Read_memory_shape s k hmode hsz hlt,
    hclosenone, hwsnone, fun hfok hlt => ?_⟩
  have h2 := (Read_memory_shape s k hmode hsz hlt).2.2.2
  rw [hclosenone (hwsnone hfok)] at h2
  exact h2

/-- Witness for the amended C10 theorem on a fresh buffer holding three
bytes. -/
theorem memory_read_never_fails_witness :
    (Read (exec (mkBuffer 10 [] okFaults) [Op.write [1, 2, 3]]) 2).2.1 = none :=
  ((memory_read_never_fails 10 [] okFaults [Op.write [1, 2, 3]] 2
    (exec (mkBuffer 10 [] okFaults) [Op.write [1, 2, 3]]) rfl (by decide)).2.1
    (by decide)).2.2.1

end HybridBuffer
